import Mathlib

/-!
Verification of the triangle classifier (`triangle_program.py`) and its
basis-path harness (`basis_path_runner.py`).

Side lengths are modelled as exact rationals `ℚ`: every arithmetic
operation the classifier performs (`+`, `*`, `-`, `abs`, comparisons) is
modelled exactly, and the literal `1e-9` is modelled as the rational
`1 / 1000000000`.  A separate small model `F` extends the rationals with
an IEEE-754 NaN value to settle the NaN behaviour of the guard checks.
-/

/-- Python's `sorted` on a three-element tuple, specialised to three
rationals.  Implemented as the stable insertion sort CPython performs on
short lists: insert `b` into `[a]`, then insert `c` into the resulting
two-element list (comparisons are strict `<`, matching CPython's
`binarysort`).  Returns `(x, y, z)` with `x ≤ y ≤ z`. -/
def sort3 (a b c : ℚ) : ℚ × ℚ × ℚ :=
  if b < a then
    if c < a then (if c < b then (c, b, a) else (b, c, a)) else (b, a, c)
  else
    if c < b then (if c < a then (c, a, b) else (a, c, b)) else (a, b, c)

/-- `classify_triangle` from `triangle_program.py`, translated clause by
clause: the guard `any(x <= 0 for x in sides)`, the triangle-inequality
check on the sorted sides, the exact equality checks for equilateral and
isosceles, and the `1e-9`-tolerance Pythagorean check.  The source
computes `is_iso` and `is_right` before branching; both are pure, so the
else-if chain below has identical behaviour. -/
def classify_triangle (a b c : ℚ) : String :=
  if a ≤ 0 ∨ b ≤ 0 ∨ c ≤ 0 then "INVALID_NONPOSITIVE"
  else
    match sort3 a b c with
    | (x, y, z) =>
      if x + y ≤ z then "INVALID_TRIANGLE_INEQUALITY"
      else if a = b ∧ b = c then "EQUILATERAL"
      else if a = b ∨ b = c ∨ a = c then "ISOSCELES"
      else if |x * x + y * y - z * z| < 1 / 1000000000 then "RIGHT_SCALENE"
      else "SCALENE"

/-- The spec's six-step decision sequence, written from the spec's words:
"let x ≤ y ≤ z be the sorted sides" is rendered canonically, with
`x = min a (min b c)`, `z = max a (max b c)` and `y` the remaining side
`a + b + c - x - z`; each rule fires only if all prior rules failed. -/
def spec_classify (a b c : ℚ) : String :=
  if a ≤ 0 ∨ b ≤ 0 ∨ c ≤ 0 then "INVALID_NONPOSITIVE"
  else
    let x := min a (min b c)
    let z := max a (max b c)
    let y := a + b + c - x - z
    if x + y ≤ z then "INVALID_TRIANGLE_INEQUALITY"
    else if a = b ∧ b = c then "EQUILATERAL"
    else if a = b ∨ b = c ∨ a = c then "ISOSCELES"
    else if |x * x + y * y - z * z| < 1 / 1000000000 then "RIGHT_SCALENE"
    else "SCALENE"

lemma sort3_eq (a b c : ℚ) :
    sort3 a b c =
      (min a (min b c), a + b + c - min a (min b c) - max a (max b c),
        max a (max b c)) := by
  unfold sort3
  simp only [min_def, max_def]
  split_ifs <;> simp only [Prod.mk.injEq, and_true, true_and] <;> linarith

lemma classify_eq_canon (a b c : ℚ) :
    classify_triangle a b c = spec_classify a b c := by
  simp only [classify_triangle, spec_classify, sort3_eq]

/-- Under the strict triangle inequality, the largest side is smaller than
the sum of the other two. -/
lemma max_lt_rest (a b c : ℚ) (h1 : a < b + c) (h2 : b < a + c) (h3 : c < a + b) :
    max a (max b c) < a + b + c - max a (max b c) := by
  rcases max_cases b c with ⟨e1, -⟩ | ⟨e1, -⟩ <;> rw [e1]
  · rcases max_cases a b with ⟨e2, -⟩ | ⟨e2, -⟩ <;> rw [e2] <;> linarith
  · rcases max_cases a c with ⟨e2, -⟩ | ⟨e2, -⟩ <;> rw [e2] <;> linarith

/-- C1: for every rational triple (a, b, c), `classify_triangle` returns
exactly the label of the spec's six-step decision sequence, evaluated in
order with the first matching rule winning. -/
theorem classify_matches_spec_sequence (a b c : ℚ) :
    classify_triangle a b c = spec_classify a b c :=
  classify_eq_canon a b c

/-- C2: `classify_triangle` is total: on every input triple it returns one
of the six labels of the closed enumeration (in the shallow embedding,
totality with no exception is witnessed by the function being defined on
all of ℚ × ℚ × ℚ and always producing a label). -/
theorem classify_total (a b c : ℚ) :
    classify_triangle a b c = "INVALID_NONPOSITIVE" ∨
    classify_triangle a b c = "INVALID_TRIANGLE_INEQUALITY" ∨
    classify_triangle a b c = "EQUILATERAL" ∨
    classify_triangle a b c = "ISOSCELES" ∨
    classify_triangle a b c = "RIGHT_SCALENE" ∨
    classify_triangle a b c = "SCALENE" := by
  rw [classify_eq_canon]
  simp only [spec_classify]
  split_ifs <;> simp

/-- C6: any triple with a nonpositive component classifies as
`INVALID_NONPOSITIVE`, whatever the other components are. -/
theorem nonpositive_side_invalid (a b c : ℚ) (h : a ≤ 0 ∨ b ≤ 0 ∨ c ≤ 0) :
    classify_triangle a b c = "INVALID_NONPOSITIVE" := by
  unfold classify_triangle
  rw [if_pos h]

/-- Witness for C6 at the concrete input (-1, 2, 3). -/
theorem nonpositive_side_invalid_witness :
    ((-1 : ℚ) ≤ 0 ∨ (2 : ℚ) ≤ 0 ∨ (3 : ℚ) ≤ 0) ∧
    classify_triangle (-1) 2 3 = "INVALID_NONPOSITIVE" :=
  ⟨Or.inl (by norm_num), nonpositive_side_invalid (-1) 2 3 (Or.inl (by norm_num))⟩

/-- C7: positive sides that violate the triangle inequality (the two
smallest sides sum to at most the largest, equality included) classify as
`INVALID_TRIANGLE_INEQUALITY`.  The sum of the two smallest sides is
written `a + b + c - max a (max b c)`. -/
theorem triangle_inequality_violation_invalid (a b c : ℚ)
    (ha : 0 < a) (hb : 0 < b) (hc : 0 < c)
    (h : a + b + c - max a (max b c) ≤ max a (max b c)) :
    classify_triangle a b c = "INVALID_TRIANGLE_INEQUALITY" := by
  rw [classify_eq_canon]
  simp only [spec_classify]
  split_ifs with g1 g2 <;>
    first
      | rfl
      | (exfalso; rcases g1 with g | g | g <;> linarith)
      | (exfalso; linarith)

/-- Witness for C7 at the concrete input (1, 2, 3), a degenerate flat
triangle. -/
theorem triangle_inequality_violation_invalid_witness :
    (0 < (1 : ℚ) ∧ 0 < (2 : ℚ) ∧ 0 < (3 : ℚ) ∧
      (1 : ℚ) + 2 + 3 - max 1 (max 2 3) ≤ max 1 (max 2 3)) ∧
    classify_triangle 1 2 3 = "INVALID_TRIANGLE_INEQUALITY" :=
  ⟨⟨by norm_num, by norm_num, by norm_num, by norm_num⟩,
    triangle_inequality_violation_invalid 1 2 3 (by norm_num) (by norm_num)
      (by norm_num) (by norm_num)⟩

/-- C3: a valid triangle with exactly two equal sides is reported as
`ISOSCELES` and never as `RIGHT_SCALENE`: the isosceles branch takes
priority over the right-triangle branch. -/
theorem isosceles_priority_over_right (a b c : ℚ)
    (ha : 0 < a) (hb : 0 < b) (hc : 0 < c)
    (h1 : a < b + c) (h2 : b < a + c) (h3 : c < a + b)
    (hiso : a = b ∨ b = c ∨ a = c) (hne : ¬(a = b ∧ b = c)) :
    classify_triangle a b c = "ISOSCELES" ∧
    classify_triangle a b c ≠ "RIGHT_SCALENE" := by
  have hmain : classify_triangle a b c = "ISOSCELES" := by
    rw [classify_eq_canon]
    simp only [spec_classify]
    split_ifs with g1 g2
    · exfalso; rcases g1 with g | g | g <;> linarith
    · exfalso; linarith [max_lt_rest a b c h1 h2 h3]
    · rfl
  exact ⟨hmain, by rw [hmain]; decide⟩

/-- Witness for C3 at the concrete isosceles triangle (5, 5, 6). -/
theorem isosceles_priority_over_right_witness :
    (0 < (5 : ℚ) ∧ 0 < (5 : ℚ) ∧ 0 < (6 : ℚ) ∧
      (5 : ℚ) < 5 + 6 ∧ (5 : ℚ) < 5 + 6 ∧ (6 : ℚ) < 5 + 5 ∧
      ((5 : ℚ) = 5 ∨ (5 : ℚ) = 6 ∨ (5 : ℚ) = 6) ∧ ¬((5 : ℚ) = 5 ∧ (5 : ℚ) = 6)) ∧
    (classify_triangle 5 5 6 = "ISOSCELES" ∧
      classify_triangle 5 5 6 ≠ "RIGHT_SCALENE") :=
  ⟨⟨by norm_num, by norm_num, by norm_num, by norm_num, by norm_num, by norm_num,
      Or.inl rfl, by norm_num⟩,
    isosceles_priority_over_right 5 5 6 (by norm_num) (by norm_num) (by norm_num)
      (by norm_num) (by norm_num) (by norm_num) (Or.inl rfl) (by norm_num)⟩

/-- C4: side equality is exact, not tolerance-based: a valid triangle with
pairwise distinct sides is never reported as `EQUILATERAL` or `ISOSCELES`,
however small the nonzero differences between the sides. -/
theorem distinct_sides_exact_equality (a b c : ℚ)
    (ha : 0 < a) (hb : 0 < b) (hc : 0 < c)
    (h1 : a < b + c) (h2 : b < a + c) (h3 : c < a + b)
    (hab : a ≠ b) (hbc : b ≠ c) (hac : a ≠ c) :
    classify_triangle a b c ≠ "EQUILATERAL" ∧
    classify_triangle a b c ≠ "ISOSCELES" := by
  rw [classify_eq_canon]
  simp only [spec_classify]
  split_ifs with g1 g2 g3 g4 g5
  · exfalso; rcases g1 with g | g | g <;> linarith
  · exfalso; linarith [max_lt_rest a b c h1 h2 h3]
  · exact absurd g3.1 hab
  · exfalso; rcases g4 with g | g | g
    exacts [hab g, hbc g, hac g]
  · exact ⟨by decide, by decide⟩
  · exact ⟨by decide, by decide⟩

/-- Witness for C4 at the concrete input (4, 5, 6 + 1/10^12), whose sides
differ pairwise by arbitrarily small nonzero amounts on the third side. -/
theorem distinct_sides_exact_equality_witness :
    (0 < (4 : ℚ) ∧ 0 < (5 : ℚ) ∧ 0 < (5 + 1 / 1000000000000 : ℚ) ∧
      (4 : ℚ) < 5 + (5 + 1 / 1000000000000) ∧
      (5 : ℚ) < 4 + (5 + 1 / 1000000000000) ∧
      (5 + 1 / 1000000000000 : ℚ) < 4 + 5 ∧
      (4 : ℚ) ≠ 5 ∧ (5 : ℚ) ≠ 5 + 1 / 1000000000000 ∧
      (4 : ℚ) ≠ 5 + 1 / 1000000000000) ∧
    (classify_triangle 4 5 (5 + 1 / 1000000000000) ≠ "EQUILATERAL" ∧
      classify_triangle 4 5 (5 + 1 / 1000000000000) ≠ "ISOSCELES") :=
  ⟨⟨by norm_num, by norm_num, by norm_num, by norm_num, by norm_num, by norm_num,
      by norm_num, by norm_num, by norm_num⟩,
    distinct_sides_exact_equality 4 5 (5 + 1 / 1000000000000)
      (by norm_num) (by norm_num) (by norm_num) (by norm_num) (by norm_num)
      (by norm_num) (by norm_num) (by norm_num) (by norm_num)⟩

lemma spec_classify_swap_ab (a b c : ℚ) : spec_classify a b c = spec_classify b a c := by
  have e1 : (a ≤ 0 ∨ b ≤ 0 ∨ c ≤ 0) ↔ (b ≤ 0 ∨ a ≤ 0 ∨ c ≤ 0) := by tauto
  have e2 : min a (min b c) = min b (min a c) := min_left_comm a b c
  have e3 : max a (max b c) = max b (max a c) := max_left_comm a b c
  have e4 : a + b + c = b + a + c := by ring
  have e5 : (a = b ∧ b = c) ↔ (b = a ∧ a = c) := by
    constructor <;> rintro ⟨rfl, rfl⟩ <;> exact ⟨rfl, rfl⟩
  have e6 : (a = b ∨ b = c ∨ a = c) ↔ (b = a ∨ a = c ∨ b = c) := by
    constructor <;> rintro (h | h | h) <;> simp [h]
  simp only [spec_classify, e1, e2, e3, e4, e5, e6]

lemma spec_classify_swap_bc (a b c : ℚ) : spec_classify a b c = spec_classify a c b := by
  have e1 : (a ≤ 0 ∨ b ≤ 0 ∨ c ≤ 0) ↔ (a ≤ 0 ∨ c ≤ 0 ∨ b ≤ 0) := by tauto
  have e2 : min a (min b c) = min a (min c b) := by rw [min_comm b c]
  have e3 : max a (max b c) = max a (max c b) := by rw [max_comm b c]
  have e4 : a + b + c = a + c + b := by ring
  have e5 : (a = b ∧ b = c) ↔ (a = c ∧ c = b) :=
    ⟨fun ⟨g1, g2⟩ => ⟨g1.trans g2, g2.symm⟩, fun ⟨g1, g2⟩ => ⟨g1.trans g2, g2.symm⟩⟩
  have e6 : (a = b ∨ b = c ∨ a = c) ↔ (a = c ∨ c = b ∨ a = b) := by
    constructor <;> rintro (h | h | h) <;> simp [h]
  simp only [spec_classify, e1, e2, e3, e4, e5, e6]

/-- C5: `classify_triangle` is permutation-invariant, and in particular
(3, 4, 5) — hence every permutation of it — classifies as
`RIGHT_SCALENE`. -/
theorem classify_permutation_invariant (a b c : ℚ) :
    (classify_triangle a b c = classify_triangle a c b ∧
     classify_triangle a b c = classify_triangle b a c ∧
     classify_triangle a b c = classify_triangle b c a ∧
     classify_triangle a b c = classify_triangle c a b ∧
     classify_triangle a b c = classify_triangle c b a) ∧
    classify_triangle 3 4 5 = "RIGHT_SCALENE" := by
  have swab : ∀ x y z : ℚ, classify_triangle x y z = classify_triangle y x z := by
    intro x y z
    rw [classify_eq_canon, classify_eq_canon, spec_classify_swap_ab]
  have swbc : ∀ x y z : ℚ, classify_triangle x y z = classify_triangle x z y := by
    intro x y z
    rw [classify_eq_canon, classify_eq_canon, spec_classify_swap_bc]
  refine ⟨⟨swbc a b c, swab a b c, ?_, ?_, ?_⟩, by norm_num [classify_triangle, sort3]⟩
  · exact (swab a b c).trans (swbc b a c)
  · exact (swbc a b c).trans (swab a c b)
  · exact ((swab a b c).trans (swbc b a c)).trans (swab b c a)

/-- C10: `classify_triangle` is deterministic: two calls with identical
inputs return identical labels (the embedding is a pure function of its
three arguments, mirroring the source, which reads no state besides
them). -/
theorem classify_deterministic (a b c a2 b2 c2 : ℚ)
    (ha : a = a2) (hb : b = b2) (hc : c = c2) :
    classify_triangle a b c = classify_triangle a2 b2 c2 := by
  rw [ha, hb, hc]

/-- Witness for C10 at the concrete repeated input (3, 4, 5). -/
theorem classify_deterministic_witness :
    ((3 : ℚ) = 3 ∧ (4 : ℚ) = 4 ∧ (5 : ℚ) = 5) ∧
    classify_triangle 3 4 5 = classify_triangle 3 4 5 :=
  ⟨⟨rfl, rfl, rfl⟩, classify_deterministic 3 4 5 3 4 5 rfl rfl rfl⟩

/-- Model of the Python float values the classifier's guard checks can
see: an exact numeric value, or the IEEE-754 NaN.  Rounding is not
modelled (every value in the NaN scenario below is exactly
representable); what the model captures is NaN propagation through
arithmetic and the IEEE rule that every ordered comparison or equality
test involving NaN is false. -/
inductive F where
  | num (q : ℚ)
  | nan
deriving DecidableEq

/-- IEEE `<=`: false whenever either operand is NaN. -/
def F.le : F → F → Bool
  | F.num p, F.num q => decide (p ≤ q)
  | _, _ => false

/-- IEEE `<`: false whenever either operand is NaN. -/
def F.lt : F → F → Bool
  | F.num p, F.num q => decide (p < q)
  | _, _ => false

/-- IEEE `==`: false whenever either operand is NaN (NaN != NaN). -/
def F.beq : F → F → Bool
  | F.num p, F.num q => decide (p = q)
  | _, _ => false

/-- IEEE addition: NaN propagates. -/
def F.add : F → F → F
  | F.num p, F.num q => F.num (p + q)
  | _, _ => F.nan

/-- IEEE multiplication: NaN propagates. -/
def F.mul : F → F → F
  | F.num p, F.num q => F.num (p * q)
  | _, _ => F.nan

/-- IEEE subtraction: NaN propagates. -/
def F.sub : F → F → F
  | F.num p, F.num q => F.num (p - q)
  | _, _ => F.nan

/-- IEEE `abs`: NaN propagates. -/
def F.fabs : F → F
  | F.num p => F.num |p|
  | F.nan => F.nan

/-- Python's `sorted` on a three-element tuple of floats: the stable
binary insertion sort CPython performs on short lists, whose comparisons
are IEEE `<` (all false on NaN operands). -/
def fsort3 (a b c : F) : F × F × F :=
  if F.lt b a then
    if F.lt c a then (if F.lt c b then (c, b, a) else (b, c, a)) else (b, a, c)
  else
    if F.lt c b then (if F.lt c a then (c, a, b) else (a, c, b)) else (a, b, c)

/-- `classify_triangle` over the float model `F`: the same translation of
`triangle_program.py` as `classify_triangle`, with every comparison and
arithmetic operation interpreted by the IEEE rules above. -/
def fclassify (a b c : F) : String :=
  if F.le a (F.num 0) || F.le b (F.num 0) || F.le c (F.num 0) then "INVALID_NONPOSITIVE"
  else
    match fsort3 a b c with
    | (x, y, z) =>
      if F.le (F.add x y) z then "INVALID_TRIANGLE_INEQUALITY"
      else if F.beq a b && F.beq b c then "EQUILATERAL"
      else if F.beq a b || F.beq b c || F.beq a c then "ISOSCELES"
      else if F.lt (F.fabs (F.sub (F.add (F.mul x x) (F.mul y y)) (F.mul z z)))
          (F.num (1 / 1000000000)) then "RIGHT_SCALENE"
      else "SCALENE"

/-- C8: a NaN side is not caught by the input guards: on (NaN, 1, 1) the
classifier returns `ISOSCELES` (the other two sides are equal), not
`INVALID_NONPOSITIVE` and not `INVALID_TRIANGLE_INEQUALITY`, because
every comparison involving NaN in the two guard checks is false. -/
theorem nan_side_not_detected_invalid :
    fclassify F.nan (F.num 1) (F.num 1) = "ISOSCELES" ∧
    fclassify F.nan (F.num 1) (F.num 1) ≠ "INVALID_NONPOSITIVE" ∧
    fclassify F.nan (F.num 1) (F.num 1) ≠ "INVALID_TRIANGLE_INEQUALITY" := by
  have h : fclassify F.nan (F.num 1) (F.num 1) = "ISOSCELES" := by
    norm_num [fclassify, fsort3, F.le, F.lt, F.beq, F.add, F.mul, F.sub, F.fabs]
  exact ⟨h, by rw [h]; decide, by rw [h]; decide⟩

namespace Runner

/-- One line of the mismatch report built by `compare` in
`basis_path_runner.py`: "case_id: expected EXP, got ACTUAL". -/
def mismatchLine (case_id exp actual : String) : String :=
  case_id ++ ": expected " ++ exp ++ ", got " ++ actual

/-- The `mismatches` list built by the loop of `compare`: for each
`(case_id, actual)` result, the expected label is looked up in the
expected-label table (`expected.get(case_id, "<missing>")`, modelled as a
partial map `String → Option String` with `<missing>` as the default) and
a mismatch line is appended when it differs from the actual label. -/
def mismatchLines : List (String × String) → (String → Option String) → List String
  | [], _ => []
  | p :: rest, expected =>
    (if p.2 ≠ (expected p.1).getD "<missing>" then
      [mismatchLine p.1 ((expected p.1).getD "<missing>") p.2]
    else []) ++ mismatchLines rest expected

/-- `compare` from `basis_path_runner.py`: returns
`(len(mismatches), mismatches)`. -/
def compare (results : List (String × String)) (expected : String → Option String) :
    ℕ × List String :=
  ((mismatchLines results expected).length, mismatchLines results expected)

lemma mem_mismatchLines (results : List (String × String))
    (expected : String → Option String) (case_id actual : String)
    (hmem : (case_id, actual) ∈ results) (hmiss : expected case_id = none)
    (hactual : actual ≠ "<missing>") :
    mismatchLine case_id "<missing>" actual ∈ mismatchLines results expected := by
  induction results with
  | nil => cases hmem
  | cons p rest ih =>
    rcases List.mem_cons.mp hmem with h | h
    · rw [mismatchLines, ← h]
      simp only [hmiss, Option.getD_none]
      rw [if_pos hactual]
      exact List.mem_append_left _ (List.mem_singleton_self _)
    · rw [mismatchLines]
      exact List.mem_append_right _ (ih h)

end Runner

/-- C9: `compare` never fails on a case identifier absent from the
expected-label table: such a case is recorded as a mismatch whose
expected value is the literal string "<missing>", and the returned
failure count always equals the number of recorded mismatch lines.  (A
classification result's actual label is one of the six classifier
labels, hence never the string "<missing>" itself.) -/
theorem compare_missing_id_recorded (results : List (String × String))
    (expected : String → Option String) (case_id actual : String)
    (hmem : (case_id, actual) ∈ results) (hmiss : expected case_id = none)
    (hactual : actual ≠ "<missing>") :
    Runner.mismatchLine case_id "<missing>" actual ∈ (Runner.compare results expected).2 ∧
    (Runner.compare results expected).1 = (Runner.compare results expected).2.length :=
  ⟨Runner.mem_mismatchLines results expected case_id actual hmem hmiss hactual, rfl⟩

/-- Witness for C9: a single-case run whose identifier is missing from
the expected table. -/
theorem compare_missing_id_recorded_witness :
    (("t1", "SCALENE") ∈ [("t1", "SCALENE")] ∧
      (fun _ : String => (none : Option String)) "t1" = none ∧
      "SCALENE" ≠ "<missing>") ∧
    (Runner.mismatchLine "t1" "<missing>" "SCALENE" ∈
        (Runner.compare [("t1", "SCALENE")] (fun _ => none)).2 ∧
      (Runner.compare [("t1", "SCALENE")] (fun _ => none)).1 =
        (Runner.compare [("t1", "SCALENE")] (fun _ => none)).2.length) :=
  ⟨⟨List.mem_singleton_self _, rfl, by decide⟩,
    compare_missing_id_recorded [("t1", "SCALENE")] (fun _ => none) "t1" "SCALENE"
      (List.mem_singleton_self _) rfl (by decide)⟩
